import Mathlib

/-!
Verification of the CSV-ingestion / JSON-query lambda pair
(`src/url_parser.py` and `src/json_endpoint.py`).

Shallow embedding conventions:

* A Python `dict` with string keys and string values (a Record, and also a
  query-parameter map) is an association list `List (String × String)` that is
  always built through `dictInsert`, which reproduces CPython dict semantics:
  updating an existing key keeps its position and replaces its value,
  inserting a fresh key appends it at the end.
* `json.dumps` / `json.loads` are modelled structurally: the blob store holds
  the record list itself (`Store := Option (List Record)`, `none` = object
  missing), since a JSON array of flat string-to-string objects round-trips
  exactly through serialization.
* External effects are explicit parameters: the `requests.get` outcome is an
  `Except` value, the stream of `uuid.uuid4()` strings is a function
  `Nat → String` (row index ↦ generated id), and `random.choice` is given the
  random draw as a `Nat` used modulo the list length.
* Python exceptions (raise_for_status, KeyError, IndexError, NoSuchKey)
  become `Except LErr` results.
-/

/-- A Python dict of string keys/values: one CSV row plus its `id` field. -/
abbrev Record := List (String × String)

/-- `d.get(k)` / `d[k]` lookup on a dict built by `dictInsert` (keys are
unique, so first-match lookup agrees with Python dict access). -/
def dictGet (d : Record) (k : String) : Option String :=
  match d with
  | [] => none
  | (k', v) :: rest => if k' = k then some v else dictGet rest k

/-- `d[k] = v` on a CPython dict: replace the value at the first occurrence
of `k` keeping its position, or append `(k, v)` if `k` is absent. -/
def dictInsert (d : Record) (k v : String) : Record :=
  match d with
  | [] => [(k, v)]
  | (k', v') :: rest =>
      if k' = k then (k', v) :: rest else (k', v') :: dictInsert rest k v

/-- `dict(zip(header, cells))`: insert the pairs left to right. -/
def dictOfPairs (ps : List (String × String)) : Record :=
  ps.foldl (fun d kv => dictInsert d kv.1 kv.2) []

/-- Split a character list at every occurrence of the separator `c`
(the separator is consumed; `n` separators yield `n + 1` pieces). -/
def splitOnChar (c : Char) : List Char → List (List Char)
  | [] => [[]]
  | x :: xs =>
      if x = c then [] :: splitOnChar c xs
      else
        match splitOnChar c xs with
        | [] => [[x]]
        | y :: ys => (x :: y) :: ys

/-- Python `str.splitlines` restricted to `\n`-separated text: split on
newlines, with no empty trailing element for a body ending in `\n`. -/
def splitLines (s : String) : List String :=
  let parts := (splitOnChar '\n' s.data).map String.mk
  if parts.getLast? = some "" then parts.dropLast else parts

/-- One line of simple (unquoted) CSV, as `csv.reader` splits it. -/
def parseFields (line : String) : List String :=
  (splitOnChar ',' line.data).map String.mk

/-- The header row of the CSV body: field names from the first line
(`csv.DictReader` takes the first row as `fieldnames`). -/
def csvHeader (body : String) : List String :=
  match splitLines body with
  | [] => []
  | h :: _ => parseFields h

/-- The data lines of the CSV body: every line after the header, except
blank lines, which `csv.DictReader` skips (`if row == []: continue`). -/
def dataLines (body : String) : List String :=
  ((splitLines body).drop 1).filter (fun l => l ≠ "")

/-- Simple-CSV well-formedness, making the embedding of the `csv` module
exact: no quoting and no carriage returns (so splitting on `\n` and `,` is
the whole grammar), a header line present, and every data row with exactly
one cell per header field. -/
def ValidCSV (body : String) : Prop :=
  splitLines body ≠ [] ∧
  (¬ '"' ∈ body.data) ∧ (¬ '\r' ∈ body.data) ∧
  ∀ l ∈ dataLines body, (parseFields l).length = (csvHeader body).length

instance (body : String) : Decidable (ValidCSV body) := by
  unfold ValidCSV; infer_instance

/-- The loop body of `url_parser.lambda_handler`: build the row dict from
the header and cells, then execute `row['id'] = str(uuid.uuid4())`. -/
def mkRecord (header : List String) (cells : List String) (uid : String) :
    Record :=
  dictInsert (dictOfPairs (header.zip cells)) "id" uid

/-- The ingestion loop over the remaining data lines, `i` being the index of
the next row in the uuid stream `gen`. -/
def ingestRows (header : List String) (gen : Nat → String) :
    List String → Nat → List Record
  | [], _ => []
  | l :: ls, i => mkRecord header (parseFields l) (gen i) :: ingestRows header gen ls (i + 1)

/-- `json_data` as accumulated by `url_parser.lambda_handler` for a CSV
body: one record per data line, ids drawn from `gen` in order. -/
def ingestRecords (body : String) (gen : Nat → String) : List Record :=
  ingestRows (csvHeader body) gen (dataLines body) 0

/-- The Python exceptions the two handlers can raise. -/
inductive LErr where
  /-- `response.raise_for_status()` on a non-2xx status, or a network error
  from `requests.get`. -/
  | httpError
  /-- `s3.get_object` on a missing object. -/
  | noSuchKey
  /-- `event['queryStringParameters']` or `obj['id']` on a missing key. -/
  | keyError
  /-- `random.choice` on an empty sequence. -/
  | indexError
deriving DecidableEq, Repr

/-- Content of the blob at the configured bucket/key (`none` = no object). -/
abbrev Store := Option (List Record)

/-- The ingestion handler's return value. `body` holds the confirmation
string (its `json.dumps` quoting is modelled structurally). -/
structure IngestResponse where
  statusCode : Nat
  body : String
deriving DecidableEq, Repr

/-- `src/url_parser.py` `lambda_handler`: `fetch` is the outcome of
`requests.get(csv_url)` (`.ok body` = 2xx with that decoded text, `.error`
= non-2xx or network failure), `gen` the uuid stream, `store` the prior
blob content. Returns the handler outcome paired with the resulting blob
content; every failure leaves the store untouched. -/
def url_parser_handler (fetch : Except String String) (gen : Nat → String)
    (store : Store) : Except LErr IngestResponse × Store :=
  match fetch with
  | .error _ => (.error .httpError, store)
  | .ok body =>
      let json_data := ingestRecords body gen
      (.ok { statusCode := 200,
             body := "CSV successfully processed and stored as JSON in S3" },
       some json_data)

/-- The query handler's return value: the `body` field holds the record
itself (its `json.dumps` encoding is modelled structurally). -/
structure QueryResponse where
  statusCode : Nat
  body : Record
  headers : List (String × String)
deriving DecidableEq, Repr

/-- The inbound event: `queryStringParameters` is `none` when the event has
no such key (so `event['queryStringParameters']` raises `KeyError`),
`some none` when the key maps to JSON null, and `some (some qp)` when it
maps to the parameter dict `qp`. -/
structure Event where
  queryStringParameters : Option (Option (List (String × String)))

/-- `next((obj for obj in json_data if obj['id'] == item_id), None)`:
scan in order; `obj['id']` raises `KeyError` on a record without an `id`
key, and the generator is lazy, so records after the first match are never
examined. -/
def findById (rs : List Record) (target : String) :
    Except LErr (Option Record) :=
  match rs with
  | [] => .ok none
  | r :: rest =>
      match dictGet r "id" with
      | none => .error .keyError
      | some v => if v = target then .ok (some r) else findById rest target

/-- `src/json_endpoint.py` `lambda_handler`: read the blob, take the `id`
query parameter, look the record up when the parameter is truthy (present
and non-empty), otherwise — or when no record matches — pick the record at
the random draw `rand` (modulo the set size), failing on an empty set. -/
def json_endpoint_handler (event : Event) (rand : Nat) (store : Store) :
    Except LErr QueryResponse :=
  match store with
  | none => .error .noSuchKey
  | some json_data =>
      match event.queryStringParameters with
      | none => .error .keyError
      | some qspVal =>
          let query_params := qspVal.getD []
          let item_id := dictGet query_params "id"
          let viaId : Except LErr (Option Record) :=
            match item_id with
            | some s => if s = "" then .ok none else findById json_data s
            | none => .ok none
          match viaId with
          | .error e => .error e
          | .ok (some item) =>
              .ok { statusCode := 200, body := item,
                    headers := [("Content-Type", "application/json")] }
          | .ok none =>
              if json_data.isEmpty then .error .indexError
              else
                .ok { statusCode := 200,
                      body := json_data.getD (rand % json_data.length) [],
                      headers := [("Content-Type", "application/json")] }

/-! ### Helper lemmas about dicts -/

theorem dictGet_dictInsert_self (d : Record) (k v : String) :
    dictGet (dictInsert d k v) k = some v := by
  induction d with
  | nil => simp [dictInsert, dictGet]
  | cons kv rest ih =>
      obtain ⟨k', v'⟩ := kv
      by_cases h : k' = k
      · simp [dictInsert, dictGet, h]
      · simp [dictInsert, dictGet, h, ih]

theorem mkRecord_id (header cells : List String) (uid : String) :
    dictGet (mkRecord header cells uid) "id" = some uid :=
  dictGet_dictInsert_self _ _ _

theorem dictGet_mem_keys {d : Record} {k v : String}
    (h : dictGet d k = some v) : k ∈ d.map Prod.fst := by
  induction d with
  | nil => simp [dictGet] at h
  | cons kv rest ih =>
      obtain ⟨k', v'⟩ := kv
      by_cases hk : k' = k
      · simp [hk]
      · simp only [dictGet, if_neg hk] at h
        simp [ih h]

theorem dictInsert_keys (d : Record) (k v : String) :
    (dictInsert d k v).map Prod.fst =
      if k ∈ d.map Prod.fst then d.map Prod.fst else d.map Prod.fst ++ [k] := by
  induction d with
  | nil => simp [dictInsert]
  | cons kv rest ih =>
      obtain ⟨k', v'⟩ := kv
      by_cases hk : k' = k
      · simp [dictInsert, hk]
      · have hk' : ¬ k = k' := fun h => hk h.symm
        simp only [dictInsert, if_neg hk, List.map_cons, List.mem_cons]
        rw [ih]
        by_cases hm : k ∈ rest.map Prod.fst
        · simp [hm, hk']
        · simp [hm, hk']

theorem dictInsert_keys_nodup {d : Record} (h : (d.map Prod.fst).Nodup)
    (k v : String) : ((dictInsert d k v).map Prod.fst).Nodup := by
  rw [dictInsert_keys]
  by_cases hm : k ∈ d.map Prod.fst
  · simpa [hm] using h
  · rw [if_neg hm]
    simp [List.nodup_append, h, hm]

theorem dictOfPairs_keys_nodup (ps : List (String × String)) :
    ((dictOfPairs ps).map Prod.fst).Nodup := by
  suffices h : ∀ (ps : List (String × String)) (d : Record),
      (d.map Prod.fst).Nodup →
      (((ps.foldl (fun d kv => dictInsert d kv.1 kv.2) d)).map Prod.fst).Nodup by
    exact h ps [] (by simp)
  intro ps
  induction ps with
  | nil => intro d hd; simpa using hd
  | cons kv rest ih =>
      intro d hd
      exact ih _ (dictInsert_keys_nodup hd kv.1 kv.2)

theorem mkRecord_keys_nodup (header cells : List String) (uid : String) :
    ((mkRecord header cells uid).map Prod.fst).Nodup :=
  dictInsert_keys_nodup (dictOfPairs_keys_nodup _) _ _

/-! ### Helper lemmas about the ingestion loop -/

theorem ingestRows_length (header : List String) (gen : Nat → String)
    (ls : List String) (i : Nat) :
    (ingestRows header gen ls i).length = ls.length := by
  induction ls generalizing i with
  | nil => rfl
  | cons l ls ih => simp [ingestRows, ih]

theorem ingestRows_getD (header : List String) (gen : Nat → String)
    (ls : List String) (i j : Nat) (hj : j < ls.length) :
    (ingestRows header gen ls i).getD j [] =
      mkRecord header (parseFields (ls.getD j "")) (gen (i + j)) := by
  induction ls generalizing i j with
  | nil => simp at hj
  | cons l ls ih =>
      cases j with
      | zero => simp [ingestRows]
      | succ j =>
          have hj' : j < ls.length := by simpa using hj
          have := ih (i + 1) j hj'
          simpa [ingestRows, Nat.add_assoc, Nat.add_comm 1 j] using this

theorem mem_ingestRows {header : List String} {gen : Nat → String}
    {ls : List String} {i : Nat} {r : Record}
    (h : r ∈ ingestRows header gen ls i) :
    ∃ j, j < ls.length ∧
      r = mkRecord header (parseFields (ls.getD j "")) (gen (i + j)) := by
  induction ls generalizing i with
  | nil => simp [ingestRows] at h
  | cons l ls ih =>
      simp only [ingestRows, List.mem_cons] at h
      rcases h with h | h
      · exact ⟨0, by simp, by simpa using h⟩
      · obtain ⟨j, hj, hr⟩ := ih h
        exact ⟨j + 1, by simpa using hj,
          by simpa [Nat.add_assoc, Nat.add_comm 1 j] using hr⟩

theorem ingestRows_map_id (header : List String) (gen : Nat → String)
    (ls : List String) (i : Nat) :
    (ingestRows header gen ls i).map (fun r => dictGet r "id") =
      (List.range ls.length).map (fun j => some (gen (i + j))) := by
  induction ls generalizing i with
  | nil => rfl
  | cons l ls ih =>
      simp only [ingestRows, List.map_cons, mkRecord_id, List.length_cons,
        List.range_succ_eq_map, List.map_map]
      refine congrArg₂ _ (by simp) ?_
      rw [ih (i + 1)]
      refine List.map_congr_left fun j _ => ?_
      simp [Function.comp, Nat.add_assoc, Nat.add_comm 1 j]

/-! ### Helper lemmas about the id scan and random pick -/

theorem findById_append_first (pre rest : List Record) (r : Record) (t : String)
    (hpre : ∀ p ∈ pre, ∃ v, dictGet p "id" = some v ∧ v ≠ t)
    (hr : dictGet r "id" = some t) :
    findById (pre ++ r :: rest) t = .ok (some r) := by
  induction pre with
  | nil => simp [findById, hr]
  | cons p pre ih =>
      obtain ⟨v, hv, hvt⟩ := hpre p (by simp)
      simp only [List.cons_append, findById, hv, if_neg hvt]
      exact ih (fun q hq => hpre q (by simp [hq]))

theorem findById_no_match (rs : List Record) (t : String)
    (h : ∀ p ∈ rs, ∃ v, dictGet p "id" = some v ∧ v ≠ t) :
    findById rs t = .ok none := by
  induction rs with
  | nil => rfl
  | cons p rs ih =>
      obtain ⟨v, hv, hvt⟩ := h p (by simp)
      simp only [findById, hv, if_neg hvt]
      exact ih (fun q hq => h q (by simp [hq]))

theorem findById_keyError (pre rest : List Record) (bad : Record) (t : String)
    (hpre : ∀ p ∈ pre, ∃ v, dictGet p "id" = some v ∧ v ≠ t)
    (hbad : dictGet bad "id" = none) :
    findById (pre ++ bad :: rest) t = .error .keyError := by
  induction pre with
  | nil => simp [findById, hbad]
  | cons p pre ih =>
      obtain ⟨v, hv, hvt⟩ := hpre p (by simp)
      simp only [List.cons_append, findById, hv, if_neg hvt]
      exact ih (fun q hq => hpre q (by simp [hq]))

theorem findById_ingestRows (header : List String) (gen : Nat → String)
    (ls : List String) (i j : Nat) (hj : j < ls.length)
    (hinj : ∀ a b, i ≤ a → a < i + ls.length → i ≤ b → b < i + ls.length →
      gen a = gen b → a = b) :
    findById (ingestRows header gen ls i) (gen (i + j)) =
      .ok (some ((ingestRows header gen ls i).getD j [])) := by
  induction ls generalizing i j with
  | nil => simp at hj
  | cons l ls ih =>
      cases j with
      | zero => simp [ingestRows, findById, mkRecord_id]
      | succ j =>
          have hj' : j < ls.length := by simpa using hj
          have hne : ¬ gen i = gen (i + (j + 1)) := by
            intro h
            have := hinj i (i + (j + 1)) le_rfl (by simp) (by omega)
              (by simp [List.length_cons]; omega) h
            omega
          have harith : i + (j + 1) = (i + 1) + j := by omega
          simp only [ingestRows, findById, mkRecord_id, if_neg hne,
            List.getD_cons_succ]
          rw [harith]
          exact ih (i + 1) j hj' (fun a b ha hab hb hbb hg =>
            hinj a b (by omega) (by simp [List.length_cons]; omega)
              (by omega) (by simp [List.length_cons]; omega) hg)

theorem getD_mem (rs : List Record) (n : Nat) (h : n < rs.length) :
    rs.getD n [] ∈ rs := by
  induction rs generalizing n with
  | nil => simp at h
  | cons r rs ih =>
      cases n with
      | zero => simp
      | succ n =>
          have := ih n (by simpa using h)
          exact List.mem_cons_of_mem _ this

/-! ### Characterizations of the query handler's branches -/

theorem json_endpoint_found (qp : List (String × String)) (rand : Nat)
    (json_data : List Record) (t : String) (r : Record)
    (hq : dictGet qp "id" = some t) (ht : ¬ t = "")
    (hf : findById json_data t = .ok (some r)) :
    json_endpoint_handler ⟨some (some qp)⟩ rand (some json_data) =
      .ok { statusCode := 200, body := r,
            headers := [("Content-Type", "application/json")] } := by
  simp [json_endpoint_handler, hq, ht, hf]

theorem json_endpoint_scan_error (qp : List (String × String)) (rand : Nat)
    (json_data : List Record) (t : String) (e : LErr)
    (hq : dictGet qp "id" = some t) (ht : ¬ t = "")
    (hf : findById json_data t = .error e) :
    json_endpoint_handler ⟨some (some qp)⟩ rand (some json_data) = .error e := by
  simp [json_endpoint_handler, hq, ht, hf]

theorem json_endpoint_random (qp : List (String × String)) (rand : Nat)
    (json_data : List Record)
    (h : dictGet qp "id" = none ∨ dictGet qp "id" = some "" ∨
      ∃ t, dictGet qp "id" = some t ∧ ¬ t = "" ∧
        findById json_data t = .ok none) :
    json_endpoint_handler ⟨some (some qp)⟩ rand (some json_data) =
      if json_data.isEmpty then .error .indexError
      else .ok { statusCode := 200,
                 body := json_data.getD (rand % json_data.length) [],
                 headers := [("Content-Type", "application/json")] } := by
  rcases h with h | h | ⟨t, h1, h2, h3⟩
  · simp [json_endpoint_handler, h]
  · simp [json_endpoint_handler, h]
  · simp [json_endpoint_handler, h1, h2, h3]

theorem json_endpoint_null_qsp (rand : Nat) (st : Store) :
    json_endpoint_handler ⟨some none⟩ rand st =
      json_endpoint_handler ⟨some (some [])⟩ rand st := by
  cases st <;> rfl

theorem json_endpoint_ok_status (e : Event) (rand : Nat) (st : Store)
    (resp : QueryResponse)
    (h : json_endpoint_handler e rand st = .ok resp) :
    resp.statusCode = 200 := by
  obtain ⟨qsp⟩ := e
  cases st with
  | none => simp [json_endpoint_handler] at h
  | some json_data =>
    cases qsp with
    | none => simp [json_endpoint_handler] at h
    | some qspVal =>
      have key : ∀ qp : List (String × String),
          json_endpoint_handler ⟨some (some qp)⟩ rand (some json_data) = .ok resp →
          resp.statusCode = 200 := by
        intro qp h
        rcases hq : dictGet qp "id" with _ | s
        · rw [json_endpoint_random qp rand json_data (Or.inl hq)] at h
          by_cases hemp : json_data.isEmpty
          · simp [hemp] at h
          · rw [if_neg hemp] at h
            injection h with h2
            subst h2
            rfl
        · by_cases hs : s = ""
          · subst hs
            rw [json_endpoint_random qp rand json_data (Or.inr (Or.inl hq))] at h
            by_cases hemp : json_data.isEmpty
            · simp [hemp] at h
            · rw [if_neg hemp] at h
              injection h with h2
              subst h2
              rfl
          · rcases hf : findById json_data s with e' | o
            · rw [json_endpoint_scan_error qp rand json_data s e' hq hs hf] at h
              simp at h
            · cases o with
              | some r =>
                  rw [json_endpoint_found qp rand json_data s r hq hs hf] at h
                  injection h with h2
                  subst h2
                  rfl
              | none =>
                  rw [json_endpoint_random qp rand json_data
                    (Or.inr (Or.inr ⟨s, hq, hs, hf⟩))] at h
                  by_cases hemp : json_data.isEmpty
                  · simp [hemp] at h
                  · rw [if_neg hemp] at h
                    injection h with h2
                    subst h2
                    rfl
      cases qspVal with
      | none =>
          rw [json_endpoint_null_qsp] at h
          exact key [] h
      | some qp => exact key qp h

/-! ### The claims -/

/-- C1: for every valid CSV input with a header line and N data rows
(and an ideal uuid stream: non-empty, collision-free on the rows used),
the ingestion handler persists a JSON array of exactly N objects, each
carrying a non-empty `id` field, with the `id` values pairwise distinct. -/
theorem ingestion_writes_n_records_with_unique_nonempty_ids
    (body : String) (gen : Nat → String) (store : Store)
    (hv : ValidCSV body)
    (hne : ∀ i, i < (dataLines body).length → ¬ gen i = "")
    (hinj : ∀ i, i < (dataLines body).length → ∀ j, j < (dataLines body).length →
      gen i = gen j → i = j) :
    ∃ rs, (url_parser_handler (.ok body) gen store).2 = some rs ∧
      rs.length = (dataLines body).length ∧
      (∀ r ∈ rs, ∃ v, dictGet r "id" = some v ∧ ¬ v = "") ∧
      (rs.map (fun r => dictGet r "id")).Nodup := by
  refine ⟨ingestRecords body gen, rfl, ingestRows_length _ _ _ _, ?_, ?_⟩
  · intro r hr
    obtain ⟨j, hj, hrj⟩ := mem_ingestRows hr
    exact ⟨gen (0 + j), by rw [hrj]; exact mkRecord_id _ _ _,
      by simpa using hne j hj⟩
  · rw [ingestRecords, ingestRows_map_id]
    refine List.Nodup.map_on ?_ (List.nodup_range _)
    intro a ha b hb hab
    simp only [List.mem_range] at ha hb
    simp only [Nat.zero_add, Option.some.injEq] at hab
    exact hinj a ha b hb hab

theorem ingestion_writes_n_records_with_unique_nonempty_ids_witness :
    ∃ rs, (url_parser_handler (.ok "h\na\nb")
        (fun n => if n = 0 then "u0" else "u1") none).2 = some rs ∧
      rs.length = (dataLines "h\na\nb").length ∧
      (∀ r ∈ rs, ∃ v, dictGet r "id" = some v ∧ ¬ v = "") ∧
      (rs.map (fun r => dictGet r "id")).Nodup :=
  ingestion_writes_n_records_with_unique_nonempty_ids
    "h\na\nb" (fun n => if n = 0 then "u0" else "u1") none
    (by decide) (by decide) (by decide)

/-- C2: on a non-empty record set, a request whose `id` parameter is
present, non-empty, and equal to some record's `id` gets HTTP 200 whose
body is the first record (in array order) with that `id`, with header
Content-Type: application/json. The set is written `pre ++ r :: rest`
with no match in `pre`, so `r` is the first match. -/
theorem query_by_id_returns_first_match
    (pre rest : List Record) (r : Record) (qp : List (String × String))
    (t : String) (rand : Nat)
    (hq : dictGet qp "id" = some t) (ht : ¬ t = "")
    (hpre : ∀ p ∈ pre, ∃ v, dictGet p "id" = some v ∧ v ≠ t)
    (hr : dictGet r "id" = some t) :
    json_endpoint_handler ⟨some (some qp)⟩ rand (some (pre ++ r :: rest)) =
      .ok { statusCode := 200, body := r,
            headers := [("Content-Type", "application/json")] } :=
  json_endpoint_found qp rand (pre ++ r :: rest) t r hq ht
    (findById_append_first pre rest r t hpre hr)

theorem query_by_id_returns_first_match_witness :
    json_endpoint_handler ⟨some (some [("id", "y")])⟩ 0
        (some ([[("id", "x")]] ++ [("name", "apple"), ("id", "y")] :: [])) =
      .ok { statusCode := 200, body := [("name", "apple"), ("id", "y")],
            headers := [("Content-Type", "application/json")] } :=
  query_by_id_returns_first_match [[("id", "x")]] []
    [("name", "apple"), ("id", "y")] [("id", "y")] "y" 0
    (by decide) (by decide)
    (by
      intro p hp
      simp only [List.mem_singleton] at hp
      subst hp
      exact ⟨"x", by decide, by decide⟩)
    (by decide)

/-- C3: on a non-empty record set (satisfying the id invariant), a query
whose `id` parameter is absent, empty, or unmatched returns HTTP 200 with
a record belonging to the set; moreover every successful response of the
query handler carries status 200 (never 404). -/
theorem query_fallback_returns_member_200
    (rs : List Record) (qp : List (String × String)) (rand : Nat)
    (hnonempty : rs ≠ [])
    (hids : ∀ p ∈ rs, ∃ v, dictGet p "id" = some v)
    (hcase : dictGet qp "id" = none ∨ dictGet qp "id" = some "" ∨
      (∃ t, dictGet qp "id" = some t ∧ ∀ p ∈ rs, ¬ dictGet p "id" = some t)) :
    (∃ resp, json_endpoint_handler ⟨some (some qp)⟩ rand (some rs) = .ok resp ∧
      resp.statusCode = 200 ∧ resp.body ∈ rs) ∧
    (∀ (e : Event) (rand2 : Nat) (st : Store) (resp : QueryResponse),
      json_endpoint_handler e rand2 st = .ok resp → resp.statusCode = 200) := by
  constructor
  · have hlen : 0 < rs.length := List.length_pos.mpr hnonempty
    have hmem : rs.getD (rand % rs.length) [] ∈ rs :=
      getD_mem rs _ (Nat.mod_lt _ hlen)
    have hne : ¬ rs.isEmpty = true := by
      simpa [List.isEmpty_iff] using hnonempty
    have hrand : json_endpoint_handler ⟨some (some qp)⟩ rand (some rs) =
        .ok { statusCode := 200, body := rs.getD (rand % rs.length) [],
              headers := [("Content-Type", "application/json")] } := by
      rcases hcase with h | h | ⟨t, ht, hnm⟩
      · rw [json_endpoint_random qp rand rs (Or.inl h), if_neg hne]
      · rw [json_endpoint_random qp rand rs (Or.inr (Or.inl h)), if_neg hne]
      · by_cases hte : t = ""
        · subst hte
          rw [json_endpoint_random qp rand rs (Or.inr (Or.inl ht)), if_neg hne]
        · have hfnm : findById rs t = .ok none := by
            apply findById_no_match
            intro p hp
            obtain ⟨v, hv⟩ := hids p hp
            exact ⟨v, hv, fun hvt => hnm p hp (hvt ▸ hv)⟩
          rw [json_endpoint_random qp rand rs
            (Or.inr (Or.inr ⟨t, ht, hte, hfnm⟩)), if_neg hne]
    exact ⟨_, hrand, rfl, hmem⟩
  · exact json_endpoint_ok_status

theorem query_fallback_returns_member_200_witness :
    (∃ resp, json_endpoint_handler ⟨some (some [("id", "zzz")])⟩ 5
        (some [[("id", "a")], [("id", "b")]]) = .ok resp ∧
      resp.statusCode = 200 ∧ resp.body ∈ [[("id", "a")], [("id", "b")]]) ∧
    (∀ (e : Event) (rand2 : Nat) (st : Store) (resp : QueryResponse),
      json_endpoint_handler e rand2 st = .ok resp → resp.statusCode = 200) :=
  query_fallback_returns_member_200 [[("id", "a")], [("id", "b")]]
    [("id", "zzz")] 5 (by decide)
    (by
      intro p hp
      simp only [List.mem_cons, List.mem_singleton, List.not_mem_nil,
        or_false] at hp
      rcases hp with rfl | rfl
      · exact ⟨"a", by decide⟩
      · exact ⟨"b", by decide⟩)
    (Or.inr (Or.inr ⟨"zzz", by decide, by
      intro p hp
      simp only [List.mem_cons, List.mem_singleton, List.not_mem_nil,
        or_false] at hp
      rcases hp with rfl | rfl <;> decide⟩))

/-- C4: over an empty record set, every query invocation propagates an
error (KeyError without a `queryStringParameters` key, otherwise the
IndexError of `random.choice` on the empty sequence) and never returns a
response. -/
theorem query_empty_set_fails (event : Event) (rand : Nat) :
    ∃ e, json_endpoint_handler event rand (some []) = .error e := by
  obtain ⟨qsp⟩ := event
  cases qsp with
  | none => exact ⟨.keyError, rfl⟩
  | some qspVal =>
      cases qspVal with
      | none => exact ⟨.indexError, rfl⟩
      | some qp =>
          rcases hq : dictGet qp "id" with _ | s
          · exact ⟨.indexError,
              by rw [json_endpoint_random qp rand [] (Or.inl hq)]; rfl⟩
          · by_cases hs : s = ""
            · subst hs
              exact ⟨.indexError,
                by rw [json_endpoint_random qp rand [] (Or.inr (Or.inl hq))]; rfl⟩
            · exact ⟨.indexError, by
                rw [json_endpoint_random qp rand []
                  (Or.inr (Or.inr ⟨s, hq, hs, rfl⟩))]
                rfl⟩

/-- C5: when the HTTP retrieval of the CSV fails (non-2xx status or
network error — the only failure point before the storage write in the
model), the ingestion handler propagates an error and the blob keeps its
prior content. -/
theorem ingestion_fetch_failure_writes_nothing (e : String)
    (gen : Nat → String) (store : Store) :
    url_parser_handler (.error e) gen store = (.error .httpError, store) :=
  rfl

/-- C6: round-trip — any record persisted by an ingestion run (row `j` of
the CSV, given an ideal uuid stream), queried back from the blob that run
wrote with the `id` parameter equal to that record's `id`, is returned
unchanged, the same fields and values. -/
theorem ingestion_query_round_trip
    (body : String) (gen : Nat → String) (store : Store)
    (rand j : Nat) (qp : List (String × String))
    (hj : j < (dataLines body).length)
    (hne : ¬ gen j = "")
    (hinj : ∀ a, a < (dataLines body).length → ∀ b, b < (dataLines body).length →
      gen a = gen b → a = b)
    (hqp : dictGet qp "id" = some (gen j)) :
    dictGet ((ingestRecords body gen).getD j []) "id" = some (gen j) ∧
    (url_parser_handler (.ok body) gen store).2 = some (ingestRecords body gen) ∧
    json_endpoint_handler ⟨some (some qp)⟩ rand
        (url_parser_handler (.ok body) gen store).2 =
      .ok { statusCode := 200, body := (ingestRecords body gen).getD j [],
            headers := [("Content-Type", "application/json")] } := by
  have hid : dictGet ((ingestRecords body gen).getD j []) "id" = some (gen j) := by
    rw [ingestRecords, ingestRows_getD _ _ _ 0 j hj]
    simpa using mkRecord_id _ _ _
  refine ⟨hid, rfl, ?_⟩
  have hfind : findById (ingestRows (csvHeader body) gen (dataLines body) 0)
      (gen j) =
      .ok (some ((ingestRows (csvHeader body) gen (dataLines body) 0).getD j [])) := by
    have := findById_ingestRows (csvHeader body) gen (dataLines body) 0 j hj
      (fun a b h1 h2 h3 h4 hg => hinj a (by omega) b (by omega) hg)
    simpa using this
  exact json_endpoint_found qp rand _ (gen j) _ hqp hne hfind

theorem ingestion_query_round_trip_witness :
    dictGet ((ingestRecords "h\na\nb"
        (fun n => if n = 0 then "u0" else "u1")).getD 1 []) "id" = some "u1" ∧
    (url_parser_handler (.ok "h\na\nb")
        (fun n => if n = 0 then "u0" else "u1") none).2 =
      some (ingestRecords "h\na\nb" (fun n => if n = 0 then "u0" else "u1")) ∧
    json_endpoint_handler ⟨some (some [("id", "u1")])⟩ 0
        (url_parser_handler (.ok "h\na\nb")
          (fun n => if n = 0 then "u0" else "u1") none).2 =
      .ok { statusCode := 200,
            body := (ingestRecords "h\na\nb"
              (fun n => if n = 0 then "u0" else "u1")).getD 1 [],
            headers := [("Content-Type", "application/json")] } :=
  ingestion_query_round_trip "h\na\nb" (fun n => if n = 0 then "u0" else "u1")
    none 0 1 [("id", "u1")] (by decide) (by decide) (by decide) (by decide)

/-- C7: when the CSV header already contains an `id` column, each
persisted record's `id` field holds the generated identifier (the CSV's
own `id` cell is overwritten), and the record carries exactly one `id`
field. -/
theorem ingestion_overwrites_existing_id_column
    (body : String) (gen : Nat → String) (store : Store) (j : Nat)
    (hv : ValidCSV body)
    (hid : "id" ∈ csvHeader body)
    (hj : j < (dataLines body).length) :
    ∃ rs, (url_parser_handler (.ok body) gen store).2 = some rs ∧
      dictGet (rs.getD j []) "id" = some (gen j) ∧
      ((rs.getD j []).map Prod.fst).count "id" = 1 := by
  refine ⟨ingestRecords body gen, rfl, ?_, ?_⟩
  · rw [ingestRecords, ingestRows_getD _ _ _ 0 j hj]
    simpa using mkRecord_id _ _ _
  · rw [ingestRecords, ingestRows_getD _ _ _ 0 j hj]
    have hnodup := mkRecord_keys_nodup (csvHeader body)
      (parseFields ((dataLines body).getD j "")) (gen (0 + j))
    have hmem : "id" ∈ (mkRecord (csvHeader body)
        (parseFields ((dataLines body).getD j "")) (gen (0 + j))).map Prod.fst :=
      dictGet_mem_keys (mkRecord_id _ _ _)
    exact List.count_eq_one_of_mem hnodup hmem

theorem ingestion_overwrites_existing_id_column_witness :
    ValidCSV "id,color\nX,red" ∧ "id" ∈ csvHeader "id,color\nX,red" ∧
    (∃ rs, (url_parser_handler (.ok "id,color\nX,red")
        (fun _ => "u0") none).2 = some rs ∧
      dictGet (rs.getD 0 []) "id" = some "u0" ∧
      ((rs.getD 0 []).map Prod.fst).count "id" = 1) :=
  ⟨by decide, by decide,
    ingestion_overwrites_existing_id_column "id,color\nX,red" (fun _ => "u0")
      none 0 (by decide) (by decide) (by decide)⟩

/-- C8: a CSV body consisting of only a header line (zero data rows) makes
ingestion write an empty JSON array to storage and succeed with status 200
and the confirmation message. -/
theorem ingestion_header_only_writes_empty_array
    (body : String) (gen : Nat → String) (store : Store)
    (h1 : (splitLines body).length = 1) :
    url_parser_handler (.ok body) gen store =
      (.ok { statusCode := 200,
             body := "CSV successfully processed and stored as JSON in S3" },
       some []) := by
  obtain ⟨a, ha⟩ := List.length_eq_one.mp h1
  have hd : dataLines body = [] := by simp [dataLines, ha]
  have hz : ingestRecords body gen = [] := by rw [ingestRecords, hd]; rfl
  simp [url_parser_handler, hz]

theorem ingestion_header_only_writes_empty_array_witness :
    url_parser_handler (.ok "name,color") (fun _ => "u0") (some [[("a", "b")]]) =
      (.ok { statusCode := 200,
             body := "CSV successfully processed and stored as JSON in S3" },
       some []) :=
  ingestion_header_only_writes_empty_array "name,color" (fun _ => "u0")
    (some [[("a", "b")]]) (by decide)

/-- C9: with a non-empty `id` parameter, the scan accesses the `id` field
of every record it visits: if a record without an `id` key precedes the
first match, the handler raises KeyError instead of falling back to random
selection. -/
theorem query_scan_missing_id_key_fails
    (pre rest : List Record) (bad : Record) (qp : List (String × String))
    (t : String) (rand : Nat)
    (hq : dictGet qp "id" = some t) (ht : ¬ t = "")
    (hbad : dictGet bad "id" = none)
    (hpre : ∀ p ∈ pre, ∃ v, dictGet p "id" = some v ∧ v ≠ t) :
    json_endpoint_handler ⟨some (some qp)⟩ rand (some (pre ++ bad :: rest)) =
      .error .keyError :=
  json_endpoint_scan_error qp rand _ t .keyError hq ht
    (findById_keyError pre rest bad t hpre hbad)

theorem query_scan_missing_id_key_fails_witness :
    json_endpoint_handler ⟨some (some [("id", "y")])⟩ 0
        (some ([[("id", "x")]] ++ [("name", "n")] :: [[("id", "y")]])) =
      .error .keyError :=
  query_scan_missing_id_key_fails [[("id", "x")]] [[("id", "y")]]
    [("name", "n")] [("id", "y")] "y" 0 (by decide) (by decide) (by decide)
    (by
      intro p hp
      simp only [List.mem_singleton] at hp
      subst hp
      exact ⟨"x", by decide, by decide⟩)

/-- C10: the query handler requires the event to carry a
`queryStringParameters` key — without it the invocation fails (KeyError
after the blob read, NoSuchKey when even the blob is missing) — while a
null `queryStringParameters` behaves exactly like a parameter dict with no
`id` entry. -/
theorem query_event_requires_qsp_key_and_null_means_no_id
    (rand : Nat) (store : Store) (qp : List (String × String))
    (hqp : dictGet qp "id" = none) :
    json_endpoint_handler ⟨none⟩ rand store =
      .error (if store.isSome then .keyError else .noSuchKey) ∧
    json_endpoint_handler ⟨some none⟩ rand store =
      json_endpoint_handler ⟨some (some qp)⟩ rand store := by
  constructor
  · cases store <;> rfl
  · cases store with
    | none => rfl
    | some json_data =>
        rw [json_endpoint_null_qsp]
        rw [json_endpoint_random [] rand json_data (Or.inl rfl),
          json_endpoint_random qp rand json_data (Or.inl hqp)]

theorem query_event_requires_qsp_key_and_null_means_no_id_witness :
    json_endpoint_handler ⟨none⟩ 0 (some [[("id", "a")]]) =
      .error (if (some [[("id", "a")]] : Store).isSome
        then .keyError else .noSuchKey) ∧
    json_endpoint_handler ⟨some none⟩ 0 (some [[("id", "a")]]) =
      json_endpoint_handler ⟨some (some [("x", "1")])⟩ 0 (some [[("id", "a")]]) :=
  query_event_requires_qsp_key_and_null_means_no_id 0 (some [[("id", "a")]])
    [("x", "1")] (by decide)
